import Mathlib

/-!
Verification of the predictive-maintenance model-building notebook
(`3_model_building.ipynb`).  The notebook is straight-line glue code:
it loads a feature table, excludes non-feature columns, fits a label
indexer and a feature indexer on the full table, splits the table by a
calendar date into training and testing subsets, fits a tree classifier,
cross-tabulates true versus predicted class on the test subset, derives
binary-collapse counts (tp, fp, tn, fn) and metrics (accuracy, precision,
recall, F1) from that confusion matrix, logs metrics to an external
tracking service, and finally persists the fitted pipeline.

The embedding below models each of those steps.  Dates are modelled as
naturals (ISO date strings compare lexicographically, which is
order-isomorphic to a numeric encoding).  Class labels and indexed
labels are naturals.  numpy/pandas float arithmetic is modelled over ℚ
together with explicit `nan`/`inf` values.
-/

namespace MLOps

/-- One row of the feature table produced by the feature-engineering
notebook: key columns `machineID` and `dt_truncated`, the categorical
label `label_e`, and the numeric feature columns. -/
structure Record where
  machineID : ℕ
  dt_truncated : ℕ
  label_e : ℕ
  features : List ℚ
deriving DecidableEq

/-! ### Feature-column exclusion (notebook cell 8)

`input_features = [x for x in input_features if x not in set(remove_names)]` -/

/-- The exclusion step of the feature assembler: keep, in order, the
columns whose name is not in `remove_names`. -/
def input_features (cols remove_names : List String) : List String :=
  cols.filter (fun x => decide (x ∉ remove_names))

/-! ### Date split (notebook cell 10)

`training = feat_data.filter(feat_data.dt_truncated < split_date)`
`testing  = feat_data.filter(feat_data.dt_truncated >= split_date)` -/

/-- Training subset: records dated strictly before the split date. -/
def training (feat_data : List Record) (split_date : ℕ) : List Record :=
  feat_data.filter (fun r => decide (r.dt_truncated < split_date))

/-- Testing subset: records dated on or after the split date. -/
def testing (feat_data : List Record) (split_date : ℕ) : List Record :=
  feat_data.filter (fun r => decide (split_date ≤ r.dt_truncated))

/-! ### Confusion matrix, fully-tabulated case (notebook cell 16)

In the defined case the crosstab has the five true classes as rows 0–4
and a column for each predicted class `0.0` … `4.0`.  `CM t p` is the
count of test records with true class `t` and predicted class `p`.
`confuse['c'][i]` selects predicted-class column `c` at row position
`i`, and `np.sum(np.sum(confuse[cs]))` totals whole columns. -/

abbrev CM := Fin 5 → Fin 5 → ℕ

/-- Total of one predicted-class column, as `np.sum` over its five rows. -/
def colSum (c : CM) (p : Fin 5) : ℕ :=
  c 0 p + c 1 p + c 2 p + c 3 p + c 4 p

/-- `tp = confuse['1.0'][1]+confuse['2.0'][2]+confuse['3.0'][3]+confuse['4.0'][4]`. -/
def tp (c : CM) : ℕ := c 1 1 + c 2 2 + c 3 3 + c 4 4

/-- `fp = np.sum(np.sum(confuse[['1.0','2.0','3.0','4.0']])) - tp`. -/
def fp (c : CM) : ℕ := (colSum c 1 + colSum c 2 + colSum c 3 + colSum c 4) - tp c

/-- `tn = confuse['0.0'][0]`. -/
def tn (c : CM) : ℕ := c 0 0

/-- `fn = np.sum(np.sum(confuse[['0.0']])) - tn`. -/
def fn (c : CM) : ℕ := colSum c 0 - tn c

/-- `acc_n = tn + tp`. -/
def acc_n (c : CM) : ℕ := tn c + tp c

/-- `acc_d = np.sum(np.sum(confuse[['0.0','1.0','2.0','3.0','4.0']]))`. -/
def acc_d (c : CM) : ℕ :=
  colSum c 0 + colSum c 1 + colSum c 2 + colSum c 3 + colSum c 4

/-- Total of one true-class row of the confusion matrix. -/
def rowSum (c : CM) (t : Fin 5) : ℕ :=
  c t 0 + c t 1 + c t 2 + c t 3 + c t 4

/-- Grand total of all cells of the confusion matrix. -/
def matrixTotal (c : CM) : ℕ :=
  rowSum c 0 + rowSum c 1 + rowSum c 2 + rowSum c 3 + rowSum c 4

/-! Spec-side restatements of the four counts, written from the spec's
words so they can be compared with the code-side definitions above. -/

/-- Spec wording: true positives are the sum of the diagonal cells for
classes 1–4. -/
def spec_tp (c : CM) : ℕ :=
  (([1, 2, 3, 4] : List (Fin 5)).map (fun i => c i i)).sum

/-- Spec wording: false positives are the sum of all predicted-failure
cells minus the true positives. -/
def spec_fp (c : CM) : ℕ :=
  (([1, 2, 3, 4] : List (Fin 5)).map
    (fun p => (([0, 1, 2, 3, 4] : List (Fin 5)).map (fun t => c t p)).sum)).sum
    - spec_tp c

/-- Spec wording: true negatives are the diagonal cell for class 0. -/
def spec_tn (c : CM) : ℕ := c 0 0

/-- Spec wording: false negatives are the sum of all true-class-0 cells
(the whole class-0 row) minus the true negatives. -/
def spec_fn (c : CM) : ℕ :=
  (([0, 1, 2, 3, 4] : List (Fin 5)).map (fun p => c 0 p)).sum - spec_tn c

/-- Amended wording: false negatives are the sum of all predicted-class-0
cells (the whole `'0.0'` column) minus the true negatives. -/
def spec_fn_pred0 (c : CM) : ℕ :=
  (([0, 1, 2, 3, 4] : List (Fin 5)).map (fun t => c t 0)).sum - spec_tn c

/-- A confusion matrix separating the row-0 total from the column-0
total: one record with true class 1 predicted 0, three records with
true class 0 predicted 1. -/
def cmEx : CM := fun t p =>
  if t = 1 ∧ p = 0 then 5 else if t = 0 ∧ p = 1 then 3 else 0

/-! ### numpy scalar arithmetic (notebook cell 16)

The counts are numpy 64-bit integers; `tp/(tp+fp)` is numpy true
division, which on a zero denominator warns and yields `nan` (for a
zero numerator) or `inf` (for a positive numerator) instead of raising.
We model the reachable fragment: values are exact rationals plus `nan`
and `inf`; `nan` propagates through every operation.  (All numerators
and denominators reached by the notebook are nonnegative, so the
negative-sign cases of `inf` arithmetic never arise.) -/

inductive PyFloat where
  | num (q : ℚ)
  | nan
  | inf
deriving DecidableEq

/-- Addition; `nan` absorbs, `inf` absorbs finite values. -/
def PyFloat.add : PyFloat → PyFloat → PyFloat
  | .num a, .num b => .num (a + b)
  | .inf, .num _ => .inf
  | .num _, .inf => .inf
  | .inf, .inf => .inf
  | _, _ => .nan

/-- Multiplication; `nan` absorbs, `inf` times a positive finite value
is `inf` and `inf` times zero is `nan`. -/
def PyFloat.mul : PyFloat → PyFloat → PyFloat
  | .num a, .num b => .num (a * b)
  | .inf, .num b => if 0 < b then .inf else .nan
  | .num a, .inf => if 0 < a then .inf else .nan
  | .inf, .inf => .inf
  | _, _ => .nan

/-- True division; a zero denominator yields `nan` for a zero numerator
and `inf` for a positive one (numpy emits a warning, not an error). -/
def pydiv : PyFloat → PyFloat → PyFloat
  | .num a, .num b => if b = 0 then (if a = 0 then .nan else .inf) else .num (a / b)
  | .num _, .inf => .num 0
  | .inf, .num _ => .inf
  | .inf, .inf => .nan
  | _, _ => .nan

/-- `acc = acc_n/acc_d`. -/
def acc (c : CM) : PyFloat := pydiv (.num (acc_n c)) (.num (acc_d c))

/-- `prec = tp/(tp+fp)`. -/
def prec (tpv fpv : ℕ) : PyFloat :=
  pydiv (.num (tpv : ℚ)) (.num ((tpv : ℚ) + (fpv : ℚ)))

/-- `rec = tp/(tp+fn)`. -/
def rec' (tpv fnv : ℕ) : PyFloat :=
  pydiv (.num (tpv : ℚ)) (.num ((tpv : ℚ) + (fnv : ℚ)))

/-- `F1 = 2.0 * prec * rec/(prec + rec)`. -/
def F1 (p r : PyFloat) : PyFloat :=
  pydiv (((PyFloat.num 2).mul p).mul r) (p.add r)

/-! ### Label and feature indexers (notebook cell 10)

`labelIndexer = StringIndexer(inputCol="label_e", outputCol="indexedLabel").fit(feat_data)`
`featureIndexer = VectorIndexer(..., maxCategories=10).fit(feat_data)`

Both indexers belong to the external ML library; only their documented
contract is visible to this repository. -/

/-- Number of occurrences of label `l` in the fit data. -/
def labelCount (labels : List ℕ) (l : ℕ) : ℕ := labels.count l

/-- Modelled from the spec: the external library's `StringIndexer`
assigns each distinct label its position in the list of distinct labels
ordered by descending frequency, ties broken by label order.  `rank
labels l` is the dense index assigned to label `l` by an indexer fit on
`labels`: the number of distinct labels strictly preceding it in that
order. -/
def rank (labels : List ℕ) (l : ℕ) : ℕ :=
  (labels.dedup.filter (fun m =>
    decide (labelCount labels l < labelCount labels m ∨
      (labelCount labels m = labelCount labels l ∧ m < l)))).length

/-- Modelled from the spec: the external library's `VectorIndexer` with
`maxCategories = 10` marks a feature coordinate categorical exactly when
it has at most 10 distinct observed values in the fit data. -/
def categoricalCoords (feat_data : List Record) (nFeat : ℕ) : List ℕ :=
  (List.range nFeat).filter (fun i =>
    decide ((feat_data.map (fun r => r.features.getD i 0)).dedup.length ≤ 10))

/-- What notebook cell 10 does, in order: fit the feature indexer on the
full assembled table, fit the label indexer on the full table, then
split the table by date.  The trace records which data each indexer was
fit on and which encoder each subset is later transformed with (the
pipeline reuses the single fitted indexer for both subsets). -/
structure SplitTrace where
  labelFitInput : List ℕ
  featureFitInput : List Record
  trainSet : List Record
  testSet : List Record
  trainLabelEncoder : ℕ → ℕ
  testLabelEncoder : ℕ → ℕ
  trainCatCoords : ℕ → List ℕ
  testCatCoords : ℕ → List ℕ

/-- The cell-10 flow: indexers fit on `feat_data`, then the date split. -/
def cell10Trace (feat_data : List Record) (split_date : ℕ) : SplitTrace :=
  let labels := feat_data.map Record.label_e
  { labelFitInput := labels
  , featureFitInput := feat_data
  , trainSet := training feat_data split_date
  , testSet := testing feat_data split_date
  , trainLabelEncoder := rank labels
  , testLabelEncoder := rank labels
  , trainCatCoords := categoricalCoords feat_data
  , testCatCoords := categoricalCoords feat_data }

/-! ### The crosstab confusion matrix as pandas sees it (cells 14 and 16)

`conf_table = predictions.stat.crosstab('indexedLabel','prediction')`
`confuse = conf_table.toPandas()`

Rows are the distinct true (indexed) classes, in an order the external
engine does not specify; columns are the distinct predicted classes.
`confuse['c']` raises when no record was predicted as class `c`, and
`confuse['c'][i]` raises when the table has at most `i` rows; both are
modelled as `none`. -/

structure CrossTab where
  rowLabels : List ℕ
  colLabels : List ℕ
  counts : ℕ → ℕ → ℕ

/-- The crosstab of a list of (true class, predicted class) pairs, with
rows and columns in first-appearance order (one admissible engine
order). -/
def mkCrosstab (data : List (ℕ × ℕ)) : CrossTab :=
  { rowLabels := (data.map Prod.fst).dedup
  , colLabels := (data.map Prod.snd).dedup
  , counts := fun t p =>
      data.countP (fun x => decide (x.1 = t) && decide (x.2 = p)) }

/-- `t` is a crosstab of `data`: its rows and columns are the distinct
true and predicted classes in some engine-chosen order, and each cell
counts the matching pairs. -/
def isCrosstabOf (t : CrossTab) (data : List (ℕ × ℕ)) : Prop :=
  t.rowLabels.Perm (data.map Prod.fst).dedup ∧
  t.colLabels.Perm (data.map Prod.snd).dedup ∧
  ∀ r p, t.counts r p =
    data.countP (fun x => decide (x.1 = r) && decide (x.2 = p))

/-- Column selection `confuse['c']`: defined only when `c` is among the
predicted classes. -/
def getCol (t : CrossTab) (c : ℕ) : Option (ℕ → ℕ) :=
  if c ∈ t.colLabels then some (fun r => t.counts r c) else none

/-- Cell access `confuse['c'][i]`: column `c` at row position `i`. -/
def getCell (t : CrossTab) (c : ℕ) (i : ℕ) : Option ℕ :=
  match getCol t c with
  | none => none
  | some col => (t.rowLabels[i]?).map col

/-- Column total `np.sum(np.sum(confuse[['c']]))`. -/
def colTotal (t : CrossTab) (c : ℕ) : Option ℕ :=
  (getCol t c).map (fun col => (t.rowLabels.map col).sum)

/-- `tp` over the raw crosstab. -/
def tpOpt (t : CrossTab) : Option ℕ :=
  match getCell t 1 1, getCell t 2 2, getCell t 3 3, getCell t 4 4 with
  | some a, some b, some c, some d => some (a + b + c + d)
  | _, _, _, _ => none

/-- `fp` over the raw crosstab. -/
def fpOpt (t : CrossTab) : Option ℕ :=
  match colTotal t 1, colTotal t 2, colTotal t 3, colTotal t 4, tpOpt t with
  | some a, some b, some c, some d, some tpv => some (a + b + c + d - tpv)
  | _, _, _, _, _ => none

/-- `tn` over the raw crosstab. -/
def tnOpt (t : CrossTab) : Option ℕ := getCell t 0 0

/-- `fn` over the raw crosstab. -/
def fnOpt (t : CrossTab) : Option ℕ :=
  match colTotal t 0, tnOpt t with
  | some s, some tnv => some (s - tnv)
  | _, _ => none

/-- `acc_d` over the raw crosstab. -/
def accdOpt (t : CrossTab) : Option ℕ :=
  match colTotal t 0, colTotal t 1, colTotal t 2, colTotal t 3, colTotal t 4 with
  | some a, some b, some c, some d, some e => some (a + b + c + d + e)
  | _, _, _, _, _ => none

/-- The whole metric block of cell 16 over the raw crosstab: accuracy,
precision, recall and F1, or `none` when any of the cell or column
accesses raises. -/
def metricsOpt (t : CrossTab) : Option (PyFloat × PyFloat × PyFloat × PyFloat) :=
  match tpOpt t, fpOpt t, tnOpt t, fnOpt t, accdOpt t with
  | some tpv, some fpv, some tnv, some fnv, some ad =>
      some (pydiv (.num ((tnv : ℚ) + (tpv : ℚ))) (.num (ad : ℚ)),
            prec tpv fpv, rec' tpv fnv, F1 (prec tpv fpv) (rec' tpv fnv))
  | _, _, _, _, _ => none

/-! ### The end-to-end run (cells 5, 10, 12, 14, 16, 17, 19)

The notebook is one straight line: an exception in any cell stops
execution, so nothing after the failing call runs.  External effects —
reading the feature table, fitting the classifier, each
`run.log`/`run.log_image`/`run.complete` call against the tracking
service — are parameters that may fail.  The artifact store holds the
state at the model save location; `model_pipeline.write().overwrite().save(...)`
is the only write to it, in the last code cell. -/

inductive Err where
  | external (stage : String)
  | evalUndefined
deriving DecidableEq

/-- Run a sequence of tracking calls in order, stopping at the first
failure, as the notebook's inline `run.log`/`run.complete` calls do. -/
def trackSeq (track : String → Except Err Unit) : List String → Except Err Unit
  | [] => .ok ()
  | n :: ns =>
    match track n with
    | .error e => .error e
    | .ok _ => trackSeq track ns

/-- The outcome of one notebook run: the pipeline result (the four
metrics, or the error that stopped the run) and the final state of the
model artifact location. -/
structure RunOutcome where
  result : Except Err (PyFloat × PyFloat × PyFloat × PyFloat)
  artifact : Option ℕ

/-- The notebook flow in cell order: load the table, fit the indexers on
the full table, split by date, log the split sizes, fit the model on the
training subset, predict on the test subset, cross-tabulate, compute the
metrics, log them (plus the feature-importance image), and only then
save the model.  `fitModel` abstracts the library's `Pipeline.fit` and
`predict` its `transform`; `store` is the prior artifact state. -/
def runNotebook (load : Except Err (List Record)) (split_date : ℕ)
    (fitModel : List Record → Except Err ℕ) (predict : ℕ → Record → ℕ)
    (track : String → Except Err Unit) (store : Option ℕ) : RunOutcome :=
  match load with
  | .error e => ⟨.error e, store⟩
  | .ok feat_data =>
    match trackSeq track ["training set size", "testing set size"] with
    | .error e => ⟨.error e, store⟩
    | .ok _ =>
      match fitModel (training feat_data split_date) with
      | .error e => ⟨.error e, store⟩
      | .ok m =>
        match metricsOpt (mkCrosstab ((testing feat_data split_date).map
            (fun r => (rank (feat_data.map Record.label_e) r.label_e, predict m r)))) with
        | none => ⟨.error .evalUndefined, store⟩
        | some met =>
          match trackSeq track ["Model Accuracy", "Model Precision",
              "Model Recall", "Model F1", "Features_importances"] with
          | .error e => ⟨.error e, store⟩
          | .ok _ => ⟨.ok met, some m⟩

/-! ### Raw-label binary collapse (for the indexed-label claims)

The test outcome as (raw true label, predicted index) pairs, and the
counts the collapse is meant to compute when index 0 is the no-failure
class and each component keeps its own index. -/

/-- The crosstab input actually built by the notebook: the true label is
first passed through the label indexer fit on the full table. -/
def indexedPreds (fullLabels : List ℕ) (testData : List (ℕ × ℕ)) : List (ℕ × ℕ) :=
  testData.map (fun x => (rank fullLabels x.1, x.2))

/-- Records whose component failure was predicted exactly. -/
def rawTP (td : List (ℕ × ℕ)) : ℕ :=
  td.countP (fun x => decide (x.1 = x.2) && decide (1 ≤ x.1) && decide (x.1 ≤ 4))

/-- Records with no failure, predicted as no failure. -/
def rawTN (td : List (ℕ × ℕ)) : ℕ :=
  td.countP (fun x => decide (x.1 = 0) && decide (x.2 = 0))

/-- Records with a true failure, predicted as no failure. -/
def rawFN (td : List (ℕ × ℕ)) : ℕ :=
  td.countP (fun x => decide (¬x.1 = 0) && decide (x.2 = 0))

/-- Records predicted as some failure that was not the true one. -/
def rawFP (td : List (ℕ × ℕ)) : ℕ :=
  td.countP (fun x => decide (1 ≤ x.2) && decide (x.2 ≤ 4) && decide (¬x.1 = x.2))

/-! ### Helper lemmas -/

lemma testing_eq_filter_not (fd : List Record) (d : ℕ) :
    testing fd d = fd.filter (fun r => !(decide (r.dt_truncated < d))) := by
  apply List.filter_congr
  intro a _
  by_cases h : a.dt_truncated < d
  · simp [h, Nat.not_le.mpr h]
  · simp [h, Nat.le_of_not_lt h]

lemma split_perm (fd : List Record) (d : ℕ) :
    (training fd d ++ testing fd d).Perm fd := by
  rw [testing_eq_filter_not]
  exact List.filter_append_perm _ fd

/-! ### Claims -/

/-- Claim C1: for every split date, every training record is dated
strictly before it and every test record on or after it; together the
two subsets are a permutation of the input table and no record lies in
both. -/
theorem C1_split (feat_data : List Record) (d : ℕ) :
    (∀ r, r ∈ training feat_data d ↔ r ∈ feat_data ∧ r.dt_truncated < d) ∧
    (∀ r, r ∈ testing feat_data d ↔ r ∈ feat_data ∧ d ≤ r.dt_truncated) ∧
    (training feat_data d ++ testing feat_data d).Perm feat_data ∧
    training feat_data d ∩ testing feat_data d = [] := by
  refine ⟨fun r => ?_, fun r => ?_, split_perm feat_data d, ?_⟩
  · simp [training, List.mem_filter]
  · simp [testing, List.mem_filter]
  · rw [List.eq_nil_iff_forall_not_mem]
    intro r hr
    rw [List.mem_inter_iff] at hr
    have h1 := (List.mem_filter.1 hr.1).2
    have h2 := (List.mem_filter.1 hr.2).2
    simp at h1 h2
    omega

/-- Claim C2, counterexample: on the matrix `cmEx` the code's false
negatives (predicted-class-0 column total minus true negatives) differ
from the claim's "sum of all true-class-0 cells minus true negatives". -/
theorem C2_cex : fn cmEx ≠ spec_fn cmEx := by decide

/-- Claim C2 as amended: the evaluator computes true positives as the
failure-class diagonal total, false positives as the predicted-failure
total minus true positives, true negatives as the class-0 diagonal cell,
and false negatives as the predicted-class-0 column total (not the
true-class-0 row total) minus true negatives. -/
theorem C2_counts (c : CM) :
    tp c = spec_tp c ∧ fp c = spec_fp c ∧ tn c = spec_tn c ∧
    fn c = spec_fn_pred0 c := by
  refine ⟨?_, ?_, rfl, ?_⟩ <;>
    simp only [tp, fp, tn, fn, spec_tp, spec_fp, spec_tn, spec_fn_pred0, colSum,
      List.map_cons, List.map_nil, List.sum_cons, List.sum_nil] <;>
    omega

/-- Claim C3: the four counts computed by the evaluator always total the
test-set size, the grand total of all confusion-matrix cells, which is
also the accuracy denominator `acc_d`. -/
theorem C3_reconciliation (c : CM) :
    tp c + fp c + tn c + fn c = matrixTotal c ∧ matrixTotal c = acc_d c := by
  refine ⟨?_, ?_⟩ <;>
    simp only [tp, fp, tn, fn, acc_d, matrixTotal, colSum, rowSum] <;>
    omega

/-- Claim C4: F1 is exactly `2·P·R/(P+R)` whenever precision and recall
lie in `(0,1]`, and every zero-denominator case (`tp+fp = 0`,
`tp+fn = 0`, or `P+R = 0`) yields the defined value `nan` — numpy's
division rule — rather than an exception, with `nan` propagating into
F1. -/
theorem C4_f1_and_zero_denominators :
    (∀ p r : ℚ, 0 < p → p ≤ 1 → 0 < r → r ≤ 1 →
      F1 (.num p) (.num r) = .num (2 * p * r / (p + r))) ∧
    (∀ tpv fpv : ℕ, tpv + fpv = 0 → prec tpv fpv = .nan) ∧
    (∀ tpv fnv : ℕ, tpv + fnv = 0 → rec' tpv fnv = .nan) ∧
    F1 (.num 0) (.num 0) = .nan ∧
    (∀ x, F1 .nan x = .nan) ∧ (∀ x, F1 x .nan = .nan) := by
  refine ⟨?_, ?_, ?_, ?_, ?_, ?_⟩
  · intro p r hp hp1 hr hr1
    have hpr : p + r ≠ 0 := by positivity
    simp [F1, PyFloat.mul, PyFloat.add, pydiv, hpr]
  · intro tpv fpv h
    have h1 : tpv = 0 := by omega
    have h2 : fpv = 0 := by omega
    subst h1; subst h2
    simp [prec, pydiv]
  · intro tpv fnv h
    have h1 : tpv = 0 := by omega
    have h2 : fnv = 0 := by omega
    subst h1; subst h2
    simp [rec', pydiv]
  · simp [F1, PyFloat.mul, PyFloat.add, pydiv]
  · intro x; cases x <;> simp [F1, PyFloat.mul, PyFloat.add, pydiv]
  · intro x; cases x <;> norm_num [F1, PyFloat.mul, PyFloat.add, pydiv]

/-- Claim C4, witness: concrete instances of the F1 identity and of the
zero-denominator rule. -/
theorem C4_witness :
    (0 < (1/2 : ℚ) ∧ (1/2 : ℚ) ≤ 1 ∧ (0 : ℕ) + 0 = 0) ∧
    F1 (.num (1/2)) (.num (1/2)) = .num (2 * (1/2) * (1/2) / ((1/2 : ℚ) + 1/2)) ∧
    prec 0 0 = .nan ∧ rec' 0 0 = .nan := by
  refine ⟨⟨by norm_num, by norm_num, rfl⟩, ?_, ?_, ?_⟩
  · exact C4_f1_and_zero_denominators.1 (1/2) (1/2) (by norm_num) (by norm_num)
      (by norm_num) (by norm_num)
  · exact C4_f1_and_zero_denominators.2.1 0 0 rfl
  · exact C4_f1_and_zero_denominators.2.2.1 0 0 rfl

/-- Claim C5: in the cell-10 flow the label and feature indexers are fit
on the full table — whose label column is a permutation of the labels of
training and testing together — before the split, and the training and
test subsets are transformed with one and the same fitted encoder. -/
theorem C5_fit_once_before_split (feat_data : List Record) (split_date : ℕ) :
    (cell10Trace feat_data split_date).trainLabelEncoder
      = (cell10Trace feat_data split_date).testLabelEncoder ∧
    (cell10Trace feat_data split_date).trainCatCoords
      = (cell10Trace feat_data split_date).testCatCoords ∧
    (cell10Trace feat_data split_date).labelFitInput
      = feat_data.map Record.label_e ∧
    (cell10Trace feat_data split_date).featureFitInput = feat_data ∧
    (((cell10Trace feat_data split_date).trainSet ++
        (cell10Trace feat_data split_date).testSet).map Record.label_e).Perm
      (cell10Trace feat_data split_date).labelFitInput := by
  refine ⟨rfl, rfl, rfl, rfl, ?_⟩
  simp only [cell10Trace]
  exact (split_perm feat_data split_date).map Record.label_e

/-- Claim C6: the exclusion step only depends on which names are in the
exclusion list (so listing a column twice changes nothing), silently
ignores names absent from the schema, is idempotent, and returns the
remaining columns in their original order. -/
theorem C6_exclusion (cols r r' : List String) :
    ((∀ x, x ∈ r ↔ x ∈ r') → input_features cols r = input_features cols r') ∧
    (∀ c, c ∉ cols → input_features cols (c :: r) = input_features cols r) ∧
    input_features (input_features cols r) r = input_features cols r ∧
    (input_features cols r).Sublist cols := by
  refine ⟨?_, ?_, ?_, ?_⟩
  · intro h
    apply List.filter_congr
    intro a _
    simp [h a]
  · intro c hc
    apply List.filter_congr
    intro a ha
    have hne : a ≠ c := fun he => hc (he ▸ ha)
    simp [List.mem_cons, hne]
  · apply List.filter_eq_self.2
    intro a ha
    exact (List.mem_filter.1 ha).2
  · exact List.filter_sublist cols

/-- Claim C6, witness: a duplicated exclusion name and a name absent
from the schema leave the feature-column list unchanged. -/
theorem C6_witness :
    (∀ x, x ∈ (["b", "b"] : List String) ↔ x ∈ (["b"] : List String)) ∧
    input_features ["a", "b", "c"] ["b", "b"] = input_features ["a", "b", "c"] ["b"] ∧
    ("z" ∉ (["a", "b", "c"] : List String)) ∧
    input_features ["a", "b", "c"] ("z" :: ["b", "b"])
      = input_features ["a", "b", "c"] ["b", "b"] := by
  have h1 : ∀ x, x ∈ (["b", "b"] : List String) ↔ x ∈ (["b"] : List String) := by
    intro x; simp
  have h2 : ("z" : String) ∉ (["a", "b", "c"] : List String) := by simp
  exact ⟨h1, (C6_exclusion ["a", "b", "c"] ["b", "b"] ["b"]).1 h1, h2,
    (C6_exclusion ["a", "b", "c"] ["b", "b"] ["b"]).2.1 "z" h2⟩

/-- Claim C7: the artifact is written only at the very end of a
successful run — an error anywhere up to and including evaluation (or in
the inline tracking calls that precede the save) leaves the artifact
location unchanged, and a successful run stores exactly the model whose
evaluation succeeded. -/
theorem C7_persist_only_after_eval (load : Except Err (List Record)) (d : ℕ)
    (fitModel : List Record → Except Err ℕ) (predict : ℕ → Record → ℕ)
    (track : String → Except Err Unit) (store : Option ℕ) :
    (∀ e, (runNotebook load d fitModel predict track store).result = .error e →
      (runNotebook load d fitModel predict track store).artifact = store) ∧
    (∀ met, (runNotebook load d fitModel predict track store).result = .ok met →
      ∃ fd m, load = .ok fd ∧ fitModel (training fd d) = .ok m ∧
        metricsOpt (mkCrosstab ((testing fd d).map
          (fun r => (rank (fd.map Record.label_e) r.label_e, predict m r)))) = some met ∧
        (runNotebook load d fitModel predict track store).artifact = some m) := by
  constructor
  · intro e h
    unfold runNotebook at h ⊢
    repeat' split at h
    all_goals simp_all
  · intro met h
    unfold runNotebook at h ⊢
    cases load with
    | error e => simp at h
    | ok fd =>
      simp only [] at h ⊢
      cases htr : trackSeq track ["training set size", "testing set size"] with
      | error e => simp [htr] at h
      | ok u =>
        rw [htr] at h
        simp only [] at h ⊢
        cases hfit : fitModel (training fd d) with
        | error e => simp [hfit] at h
        | ok m =>
          rw [hfit] at h
          simp only [] at h ⊢
          cases hmet : metricsOpt (mkCrosstab ((testing fd d).map
              (fun r => (rank (fd.map Record.label_e) r.label_e, predict m r)))) with
          | none => simp [hmet] at h
          | some met' =>
            rw [hmet] at h
            simp only [] at h ⊢
            cases htr2 : trackSeq track ["Model Accuracy", "Model Precision",
                "Model Recall", "Model F1", "Features_importances"] with
            | error e => simp [htr2] at h
            | ok u2 =>
              rw [htr2] at h
              simp only [] at h ⊢
              have hmm : met' = met := by simpa using h
              exact ⟨fd, m, rfl, hfit, by rw [hmet, hmm], rfl⟩

/-- A load failure used as the concrete instance for claim C7. -/
def loadFailEx : Except Err (List Record) := .error (.external "load")

/-- Claim C7, witness: a run whose load fails ends in that error and
leaves the (empty) artifact location unchanged. -/
theorem C7_witness :
    (runNotebook loadFailEx 5 (fun _ => .ok 7) (fun _ r => r.label_e)
        (fun _ => .ok ()) none).result = .error (.external "load") ∧
    (runNotebook loadFailEx 5 (fun _ => .ok 7) (fun _ r => r.label_e)
        (fun _ => .ok ()) none).artifact = none :=
  ⟨rfl, (C7_persist_only_after_eval loadFailEx 5 (fun _ => .ok 7)
    (fun _ r => r.label_e) (fun _ => .ok ()) none).1 (.external "load") rfl⟩

/-- A feature record with the given machine id and label, dated day 10. -/
def rEx (i : ℕ) : Record := ⟨i, 10, i, []⟩

/-- A five-record table with one record per class. -/
def fdEx : List Record := [rEx 0, rEx 1, rEx 2, rEx 3, rEx 4]

/-- A tracking service that accepts every call. -/
def trackOk : String → Except Err Unit := fun _ => .ok ()

/-- A tracking service whose calls all fail. -/
def trackFail : String → Except Err Unit := fun _ => .error (.external "aml")

/-- Claim C8, counterexample: with every non-tracking stage succeeding,
the run succeeds with a working tracker but fails — and persists nothing
— when the tracking call fails, so a tracking failure is treated as a
pipeline failure. -/
theorem C8_cex :
    (runNotebook (.ok fdEx) 5 (fun _ => .ok 7) (fun _ r => r.label_e)
        trackOk none).result.isOk = true ∧
    (runNotebook (.ok fdEx) 5 (fun _ => .ok 7) (fun _ r => r.label_e)
        trackFail none).result = .error (.external "aml") ∧
    (runNotebook (.ok fdEx) 5 (fun _ => .ok 7) (fun _ r => r.label_e)
        trackFail none).artifact = none :=
  ⟨rfl, rfl, rfl⟩

/-- Claim C8 as amended: tracking is not decoupled — a failing tracking
call aborts the run with that error (so no artifact is written), and
pipeline success therefore requires the tracking calls to succeed. -/
theorem C8_tracking_failure_aborts (fd : List Record) (d : ℕ)
    (fitModel : List Record → Except Err ℕ) (predict : ℕ → Record → ℕ)
    (track : String → Except Err Unit) (store : Option ℕ) (e : Err)
    (h : track "training set size" = .error e) :
    (runNotebook (.ok fd) d fitModel predict track store).result = .error e ∧
    (runNotebook (.ok fd) d fitModel predict track store).artifact = store := by
  unfold runNotebook trackSeq
  rw [h]
  exact ⟨rfl, rfl⟩

/-- Claim C8, witness: the aborting behaviour at the concrete failing
tracker. -/
theorem C8_witness :
    trackFail "training set size" = .error (.external "aml") ∧
    (runNotebook (.ok fdEx) 5 (fun _ => .ok 9) (fun _ r => r.label_e)
        trackFail none).result = .error (.external "aml") ∧
    (runNotebook (.ok fdEx) 5 (fun _ => .ok 9) (fun _ r => r.label_e)
        trackFail none).artifact = none :=
  ⟨rfl,
    (C8_tracking_failure_aborts fdEx 5 (fun _ => .ok 9) (fun _ r => r.label_e)
      trackFail none (.external "aml") rfl).1,
    (C8_tracking_failure_aborts fdEx 5 (fun _ => .ok 9) (fun _ r => r.label_e)
      trackFail none (.external "aml") rfl).2⟩

/-! ### Definedness of the crosstab accesses (claim C9) -/

lemma isSome_idx {α : Type} (l : List α) (i : ℕ) :
    (l[i]?).isSome = true ↔ i < l.length := by
  constructor
  · intro h
    rcases Option.isSome_iff_exists.1 h with ⟨a, ha⟩
    rcases List.getElem?_eq_some_iff.1 ha with ⟨h', _⟩
    exact h'
  · intro h
    rw [List.getElem?_eq_getElem h]
    rfl

lemma getCell_isSome (t : CrossTab) (c i : ℕ) :
    (getCell t c i).isSome = true ↔ c ∈ t.colLabels ∧ i < t.rowLabels.length := by
  unfold getCell getCol
  by_cases hc : c ∈ t.colLabels
  · simp [hc, isSome_idx]
  · simp [hc]

lemma getCell_eq (t : CrossTab) (c i : ℕ) (hc : c ∈ t.colLabels)
    (hi : i < t.rowLabels.length) :
    getCell t c i = some (t.counts t.rowLabels[i] c) := by
  unfold getCell getCol
  simp [hc, List.getElem?_eq_getElem hi]

lemma colTotal_isSome (t : CrossTab) (c : ℕ) :
    (colTotal t c).isSome = true ↔ c ∈ t.colLabels := by
  unfold colTotal getCol
  by_cases hc : c ∈ t.colLabels <;> simp [hc]

lemma colTotal_eq (t : CrossTab) (c : ℕ) (hc : c ∈ t.colLabels) :
    colTotal t c = some ((t.rowLabels.map (fun r => t.counts r c)).sum) := by
  unfold colTotal getCol
  simp [hc]

lemma tpOpt_isSome (t : CrossTab) : (tpOpt t).isSome = true ↔
    (getCell t 1 1).isSome = true ∧ (getCell t 2 2).isSome = true ∧
    (getCell t 3 3).isSome = true ∧ (getCell t 4 4).isSome = true := by
  unfold tpOpt
  cases getCell t 1 1 <;> cases getCell t 2 2 <;> cases getCell t 3 3 <;>
    cases getCell t 4 4 <;> simp

lemma fpOpt_isSome (t : CrossTab) : (fpOpt t).isSome = true ↔
    (colTotal t 1).isSome = true ∧ (colTotal t 2).isSome = true ∧
    (colTotal t 3).isSome = true ∧ (colTotal t 4).isSome = true ∧
    (tpOpt t).isSome = true := by
  unfold fpOpt
  cases colTotal t 1 <;> cases colTotal t 2 <;> cases colTotal t 3 <;>
    cases colTotal t 4 <;> cases tpOpt t <;> simp

lemma fnOpt_isSome (t : CrossTab) : (fnOpt t).isSome = true ↔
    (colTotal t 0).isSome = true ∧ (tnOpt t).isSome = true := by
  unfold fnOpt
  cases colTotal t 0 <;> cases tnOpt t <;> simp

lemma accdOpt_isSome (t : CrossTab) : (accdOpt t).isSome = true ↔
    (colTotal t 0).isSome = true ∧ (colTotal t 1).isSome = true ∧
    (colTotal t 2).isSome = true ∧ (colTotal t 3).isSome = true ∧
    (colTotal t 4).isSome = true := by
  unfold accdOpt
  cases colTotal t 0 <;> cases colTotal t 1 <;> cases colTotal t 2 <;>
    cases colTotal t 3 <;> cases colTotal t 4 <;> simp

lemma metricsOpt_isSome_iff (t : CrossTab) : (metricsOpt t).isSome = true ↔
    (tpOpt t).isSome = true ∧ (fpOpt t).isSome = true ∧
    (tnOpt t).isSome = true ∧ (fnOpt t).isSome = true ∧
    (accdOpt t).isSome = true := by
  unfold metricsOpt
  cases tpOpt t <;> cases fpOpt t <;> cases tnOpt t <;> cases fnOpt t <;>
    cases accdOpt t <;> simp

/-- Claim C9 as amended: the metric computation is defined exactly when
the crosstab has a predicted-class column for each of the five classes
and at least five rows — regardless of the row order — and it errors on
any test outcome in which some class is never predicted or fewer than
five true classes occur. -/
theorem C9_metrics_defined_iff :
    (∀ t : CrossTab, (metricsOpt t).isSome = true ↔
      (0 ∈ t.colLabels ∧ 1 ∈ t.colLabels ∧ 2 ∈ t.colLabels ∧ 3 ∈ t.colLabels ∧
        4 ∈ t.colLabels ∧ 5 ≤ t.rowLabels.length)) ∧
    (∀ data : List (ℕ × ℕ), (metricsOpt (mkCrosstab data)).isSome = true ↔
      ((∀ c, c ≤ 4 → ∃ x ∈ data, x.2 = c) ∧
        5 ≤ ((data.map Prod.fst).dedup).length)) := by
  have main : ∀ t : CrossTab, (metricsOpt t).isSome = true ↔
      (0 ∈ t.colLabels ∧ 1 ∈ t.colLabels ∧ 2 ∈ t.colLabels ∧ 3 ∈ t.colLabels ∧
        4 ∈ t.colLabels ∧ 5 ≤ t.rowLabels.length) := by
    intro t
    rw [metricsOpt_isSome_iff, tpOpt_isSome, fpOpt_isSome, fnOpt_isSome,
      accdOpt_isSome, tpOpt_isSome]
    unfold tnOpt
    simp only [getCell_isSome, colTotal_isSome]
    constructor
    · rintro ⟨⟨⟨h1, -⟩, ⟨h2, -⟩, ⟨h3, -⟩, ⟨h4, hL⟩⟩, -, ⟨h0, -⟩, -, -⟩
      exact ⟨h0, h1, h2, h3, h4, by omega⟩
    · rintro ⟨h0, h1, h2, h3, h4, hL⟩
      refine ⟨⟨⟨h1, by omega⟩, ⟨h2, by omega⟩, ⟨h3, by omega⟩, ⟨h4, by omega⟩⟩,
        ⟨h1, h2, h3, h4, ⟨h1, by omega⟩, ⟨h2, by omega⟩, ⟨h3, by omega⟩, ⟨h4, by omega⟩⟩,
        ⟨h0, by omega⟩, ⟨h0, ⟨h0, by omega⟩⟩, h0, h1, h2, h3, h4⟩
  refine ⟨main, fun data => ?_⟩
  rw [main (mkCrosstab data)]
  have hmem : ∀ c : ℕ, c ∈ (mkCrosstab data).colLabels ↔ ∃ x ∈ data, x.2 = c := by
    intro c
    simp [mkCrosstab, List.mem_dedup, List.mem_map]
  have hlen : (mkCrosstab data).rowLabels.length = ((data.map Prod.fst).dedup).length := rfl
  rw [hmem 0, hmem 1, hmem 2, hmem 3, hmem 4, hlen]
  constructor
  · rintro ⟨h0, h1, h2, h3, h4, hL⟩
    refine ⟨fun c hc => ?_, hL⟩
    interval_cases c
    · exact h0
    · exact h1
    · exact h2
    · exact h3
    · exact h4
  · rintro ⟨h, hL⟩
    exact ⟨h 0 (by omega), h 1 (by omega), h 2 (by omega), h 3 (by omega),
      h 4 (by omega), hL⟩

/-- The test outcome whose crosstab rows come out in the order
`[1, 0, 2, 3, 4]`. -/
def ctDataEx : List (ℕ × ℕ) := [(1, 0), (0, 1), (2, 2), (3, 3), (4, 4)]

/-- Claim C9, counterexample: the metric computation is defined on a
crosstab whose row order does not match the classes 0–4, so definedness
does not require the claimed positional ordering. -/
theorem C9_cex :
    (mkCrosstab ctDataEx).rowLabels ≠ [0, 1, 2, 3, 4] ∧
    (metricsOpt (mkCrosstab ctDataEx)).isSome = true := by
  exact ⟨by decide, rfl⟩

/-- A fully diagonal test outcome covering all five classes. -/
def ctDataWit : List (ℕ × ℕ) := [(0, 0), (1, 1), (2, 2), (3, 3), (4, 4)]

/-- Claim C9, witness: on a concrete outcome predicting every class and
containing all five true classes the metric computation is defined, and
dropping class 4 from the predictions makes it error. -/
theorem C9_witness :
    (metricsOpt (mkCrosstab ctDataWit)).isSome = true ∧
    (metricsOpt (mkCrosstab [(0, 0), (1, 1), (2, 2), (3, 3), (4, 0)])).isSome = false := by
  constructor
  · exact (C9_metrics_defined_iff.2 ctDataWit).mpr ⟨by decide, by decide⟩
  · have h := (C9_metrics_defined_iff.2 [(0, 0), (1, 1), (2, 2), (3, 3), (4, 0)])
    rcases hs : (metricsOpt (mkCrosstab [(0, 0), (1, 1), (2, 2), (3, 3), (4, 0)])).isSome with _ | _
    · rfl
    · exfalso
      have h4 := ((h.mp hs).1 4 (by omega))
      simp at h4

/-! ### Counting identities for the binary collapse (claim C10) -/

lemma tp_counts (td : List (ℕ × ℕ)) :
    td.countP (fun x => decide (x.1 = 1) && decide (x.2 = 1)) +
    td.countP (fun x => decide (x.1 = 2) && decide (x.2 = 2)) +
    td.countP (fun x => decide (x.1 = 3) && decide (x.2 = 3)) +
    td.countP (fun x => decide (x.1 = 4) && decide (x.2 = 4)) = rawTP td := by
  induction td with
  | nil => rfl
  | cons x l ih =>
    unfold rawTP at ih ⊢
    simp only [List.countP_cons, Bool.and_eq_true, decide_eq_true_eq]
    split_ifs <;> omega

lemma col_count (c : ℕ) (td : List (ℕ × ℕ)) (h : ∀ x ∈ td, x.1 ≤ 4) :
    td.countP (fun x => decide (x.1 = 0) && decide (x.2 = c)) +
    td.countP (fun x => decide (x.1 = 1) && decide (x.2 = c)) +
    td.countP (fun x => decide (x.1 = 2) && decide (x.2 = c)) +
    td.countP (fun x => decide (x.1 = 3) && decide (x.2 = c)) +
    td.countP (fun x => decide (x.1 = 4) && decide (x.2 = c)) =
    td.countP (fun x => decide (x.2 = c)) := by
  induction td with
  | nil => rfl
  | cons x l ih =>
    have hx := h x (List.mem_cons_self x l)
    have ih' := ih (fun y hy => h y (List.mem_cons_of_mem x hy))
    simp only [List.countP_cons, Bool.and_eq_true, decide_eq_true_eq]
    split_ifs <;> omega

lemma fn_counts (td : List (ℕ × ℕ)) :
    td.countP (fun x => decide (x.2 = 0)) =
    td.countP (fun x => decide (x.1 = 0) && decide (x.2 = 0)) + rawFN td := by
  induction td with
  | nil => rfl
  | cons x l ih =>
    unfold rawFN at ih ⊢
    simp only [List.countP_cons, Bool.and_eq_true, decide_eq_true_eq]
    split_ifs <;> omega

lemma fp_counts (td : List (ℕ × ℕ)) :
    td.countP (fun x => decide (x.2 = 1)) +
    td.countP (fun x => decide (x.2 = 2)) +
    td.countP (fun x => decide (x.2 = 3)) +
    td.countP (fun x => decide (x.2 = 4)) = rawTP td + rawFP td := by
  induction td with
  | nil => rfl
  | cons x l ih =>
    unfold rawTP rawFP at ih ⊢
    simp only [List.countP_cons, Bool.and_eq_true, decide_eq_true_eq]
    split_ifs <;> omega

/-- A fit table whose most frequent label is component 1, swapping the
indexer ranks of labels 0 and 1. -/
def fullSwap : List ℕ :=
  [1, 1, 1, 1, 1, 1, 1, 1, 1, 1, 0, 0, 0, 0, 0, 2, 2, 2, 2, 3, 3, 3, 4, 4]

/-- The test outcome used with `fullSwap`. -/
def tdSwap : List (ℕ × ℕ) := [(1, 0), (0, 1), (2, 2), (3, 3), (4, 4)]

/-- A fit table with strictly decreasing class frequencies, so the
indexer rank of every label equals the label. -/
def fullWit : List ℕ := [0, 0, 0, 0, 0, 1, 1, 1, 1, 2, 2, 2, 3, 3, 4]

/-- The test outcome used with `fullWit`. -/
def tdWit : List (ℕ × ℕ) := [(0, 1), (1, 0), (2, 2), (3, 3), (4, 4)]

/-- Claim C10: the evaluator's counts are computed from the crosstab of
the frequency-ranked indexed label, and they coincide with the raw-label
binary collapse (index 0 = no failure, component `i` = index `i`) when
the indexer ranks every class at its own number — while with a different
frequency ranking (here the no-failure label is not the most frequent)
the computed true negatives differ from the raw-label ones. -/
theorem C10_indexed_label_collapse :
    (∀ (full : List ℕ) (td : List (ℕ × ℕ)) (t : CrossTab),
      (∀ l, l ≤ 4 → rank full l = l) →
      (∀ x ∈ td, x.1 ≤ 4) →
      isCrosstabOf t (indexedPreds full td) →
      t.rowLabels = [0, 1, 2, 3, 4] →
      (∀ c, c ≤ 4 → c ∈ t.colLabels) →
      tpOpt t = some (rawTP td) ∧ tnOpt t = some (rawTN td) ∧
      fnOpt t = some (rawFN td) ∧ fpOpt t = some (rawFP td)) ∧
    (∃ (full : List ℕ) (td : List (ℕ × ℕ)),
      (∀ x ∈ td, x.1 ≤ 4) ∧ rank full 0 ≠ 0 ∧
      (mkCrosstab (indexedPreds full td)).rowLabels = [0, 1, 2, 3, 4] ∧
      tnOpt (mkCrosstab (indexedPreds full td)) ≠ some (rawTN td)) := by
  constructor
  · intro full td t hrank hlab ht hrow hcol
    have hip : indexedPreds full td = td := by
      unfold indexedPreds
      have he : ∀ x ∈ td, (fun x : ℕ × ℕ => (rank full x.1, x.2)) x = id x := by
        intro x hx
        simp [hrank x.1 (hlab x hx)]
      rw [List.map_congr_left he, List.map_id]
    rw [hip] at ht
    obtain ⟨hrperm, hcperm, hcnt⟩ := ht
    have hL : t.rowLabels.length = 5 := by rw [hrow]; rfl
    have hgc : ∀ c i : ℕ, c ∈ t.colLabels → i < 5 →
        getCell t c i = some (t.counts i c) := by
      intro c i hc hi
      have hi' : i < t.rowLabels.length := by omega
      rw [getCell_eq t c i hc hi']
      have hri : t.rowLabels[i] = i := by
        simp only [hrow]
        interval_cases i <;> rfl
      rw [hri]
    have hct : ∀ c : ℕ, c ∈ t.colLabels →
        colTotal t c = some (td.countP (fun x => decide (x.2 = c))) := by
      intro c hc
      rw [colTotal_eq t c hc]
      congr 1
      rw [hrow]
      simp only [List.map_cons, List.map_nil, List.sum_cons, List.sum_nil]
      rw [hcnt 0 c, hcnt 1 c, hcnt 2 c, hcnt 3 c, hcnt 4 c]
      have h1 := col_count c td hlab
      omega
    have htp : tpOpt t = some (rawTP td) := by
      unfold tpOpt
      rw [hgc 1 1 (hcol 1 (by omega)) (by omega), hgc 2 2 (hcol 2 (by omega)) (by omega),
        hgc 3 3 (hcol 3 (by omega)) (by omega), hgc 4 4 (hcol 4 (by omega)) (by omega)]
      simp only []
      rw [hcnt 1 1, hcnt 2 2, hcnt 3 3, hcnt 4 4]
      exact congrArg some (tp_counts td)
    have htn : tnOpt t = some (rawTN td) := by
      unfold tnOpt
      rw [hgc 0 0 (hcol 0 (by omega)) (by omega), hcnt 0 0]
      rfl
    have hfn : fnOpt t = some (rawFN td) := by
      unfold fnOpt
      rw [hct 0 (hcol 0 (by omega)), htn]
      simp only []
      congr 1
      have h1 := fn_counts td
      have h2 : rawTN td =
          td.countP (fun x => decide (x.1 = 0) && decide (x.2 = 0)) := rfl
      omega
    have hfp : fpOpt t = some (rawFP td) := by
      unfold fpOpt
      rw [hct 1 (hcol 1 (by omega)), hct 2 (hcol 2 (by omega)),
        hct 3 (hcol 3 (by omega)), hct 4 (hcol 4 (by omega)), htp]
      simp only []
      congr 1
      have h1 := fp_counts td
      omega
    exact ⟨htp, htn, hfn, hfp⟩
  · exact ⟨fullSwap, tdSwap, by decide, by decide, by decide, by decide⟩

/-- Claim C10, witness: with a strictly frequency-ordered fit table the
rank of every label is its own number, and on a concrete five-class test
outcome the crosstab counts equal the raw-label collapse counts. -/
theorem C10_witness :
    (∀ l, l ≤ 4 → rank fullWit l = l) ∧ (∀ x ∈ tdWit, x.1 ≤ 4) ∧
    (mkCrosstab (indexedPreds fullWit tdWit)).rowLabels = [0, 1, 2, 3, 4] ∧
    (∀ c, c ≤ 4 → c ∈ (mkCrosstab (indexedPreds fullWit tdWit)).colLabels) ∧
    tpOpt (mkCrosstab (indexedPreds fullWit tdWit)) = some (rawTP tdWit) ∧
    tnOpt (mkCrosstab (indexedPreds fullWit tdWit)) = some (rawTN tdWit) := by
  have h := (C10_indexed_label_collapse.1 fullWit tdWit
    (mkCrosstab (indexedPreds fullWit tdWit))
    (by decide) (by decide)
    ⟨List.Perm.refl _, List.Perm.refl _, fun r p => rfl⟩
    (by decide) (by decide))
  exact ⟨by decide, by decide, by decide, by decide, h.1, h.2.1⟩

end MLOps
